import Mathlib

/-!
Verification of the room-booking scheduler (`app.py`).

The booking table has five TEXT columns `(room_name, date, start_time, end_time,
booking_info)` with no key or uniqueness constraint; it is modelled as a
`List Booking`, a SQL `INSERT` appends at the end, `SELECT ... fetchone()`
returns the first matching row in insertion order (`List.find?`), and
`DELETE ... WHERE` removes every matching row (`List.filter`).

SQLite compares TEXT values bytewise (memcmp over UTF-8), which on these
ASCII `"HH:MM"` labels coincides with lexicographic order on the code points.
The executable comparison `strLt` below implements exactly that order and is
bridged to Mathlib's linear order on `String` (`strLt_iff_lt`), so theorems
can be stated with `<` / `≤` on `String` and still be decided by evaluation.

Calendar dates only ever flow through the code as `str(current_date)`
(ISO `YYYY-MM-DD`), and the only operations applied to the `date` column are
SQL equality and the Python-side step `current_date += timedelta(days=7)`.
Since `str` is injective on dates and adding seven days is addition on day
numbers, dates are modelled as `Nat` day numbers.
-/

namespace RoomBooking

/-- Lexicographic (memcmp-style) comparison of character lists, the order
SQLite uses on TEXT values.  Written as a structurally recursive `Bool`
function so that it evaluates inside the kernel. -/
def charListLt : List Char → List Char → Bool
  | _, [] => false
  | [], _ :: _ => true
  | a :: as, b :: bs => if a < b then true else if b < a then false else charListLt as bs

/-- Bytewise-order strict comparison on strings, as performed by the SQL
comparisons `start_time <= ?`, `end_time > ?`, etc. of the source. -/
def strLt (a b : String) : Bool := charListLt a.data b.data

/-- Non-strict bytewise comparison, `a ≤ b` as `¬ (b < a)`. -/
def strLe (a b : String) : Bool := !(strLt b a)

theorem charListLt_iff (as bs : List Char) :
    charListLt as bs = true ↔ List.Lex (· < ·) as bs := by
  induction as generalizing bs with
  | nil =>
    cases bs with
    | nil => simp [charListLt]
    | cons b bs => simp [charListLt]; exact List.Lex.nil
  | cons a as ih =>
    cases bs with
    | nil => simp [charListLt]
    | cons b bs =>
      by_cases hab : a < b
      · simp [charListLt, hab]
        exact List.Lex.rel hab
      · by_cases hba : b < a
        · simp [charListLt, hab, hba]
          intro h
          cases h with
          | rel h2 => exact absurd h2 hab
          | cons h2 => exact absurd hba (lt_irrefl a)
        · have heq : a = b := le_antisymm (not_lt.mp hba) (not_lt.mp hab)
          subst heq
          simp [charListLt, lt_irrefl]
          constructor
          · intro h; exact List.Lex.cons ((ih bs).mp h)
          · intro h
            cases h with
            | rel h2 => exact absurd h2 (lt_irrefl a)
            | cons h2 => exact (ih bs).mpr h2

/-- The executable comparison agrees with Mathlib's linear order on `String`. -/
theorem strLt_iff_lt (a b : String) : strLt a b = true ↔ a < b := by
  rw [String.lt_iff_toList_lt]
  exact charListLt_iff a.data b.data

theorem strLe_iff_le (a b : String) : strLe a b = true ↔ a ≤ b := by
  rw [strLe, Bool.not_eq_true']
  rw [← not_lt, ← strLt_iff_lt b a]
  simp

instance (priority := 5000) decStringLt (a b : String) : Decidable (a < b) :=
  decidable_of_iff (strLt a b = true) (strLt_iff_lt a b)

instance (priority := 5000) decStringLe (a b : String) : Decidable (a ≤ b) :=
  decidable_of_iff (strLe a b = true) (strLe_iff_le a b)

/-- One row of the `bookings` table:
`CREATE TABLE bookings (room_name TEXT, date TEXT, start_time TEXT, end_time TEXT,
booking_info TEXT)` — no primary key, no uniqueness constraint. -/
structure Booking where
  room_name : String
  date : Nat
  start_time : String
  end_time : String
  booking_info : String
deriving DecidableEq, Repr

/-- Row predicate of `is_room_booked`'s query:
`SELECT * FROM bookings WHERE room_name=? AND date=? AND start_time <= ? AND end_time > ?`
with parameters `(room, date, timeslot, timeslot)`. -/
def bookedAt (room : String) (date : Nat) (timeslot : String) (b : Booking) : Bool :=
  b.room_name == room && b.date == date &&
    strLe b.start_time timeslot && strLt timeslot b.end_time

/-- `is_room_booked(room, date, timeslot)`: first stored row (if any) whose
half-open interval covers `timeslot` for this room and date. -/
def is_room_booked (room : String) (date : Nat) (timeslot : String)
    (db : List Booking) : Option Booking :=
  db.find? (bookedAt room date timeslot)

/-- Row predicate of `is_room_available`'s query.  The SQL
`WHERE room_name=? AND date=? AND
  ((start_time > ? AND start_time < ?) OR
   (end_time > ? AND end_time < ?) OR
   (start_time <= ? AND end_time > ?) OR
   (start_time >= ? AND end_time <= ?))`
receives the parameter tuple
`(room, date, start, end, start, end, start, start, end, start)`,
so with query interval `[s, e)` and stored row `(S, E)` the four disjuncts read
`s < S < e`, `s < E < e`, `S ≤ s < E`, and `S ≥ e ∧ E ≤ s`. -/
def availClash (room : String) (date : Nat) (start_time end_time : String)
    (b : Booking) : Bool :=
  b.room_name == room && b.date == date &&
    ((strLt start_time b.start_time && strLt b.start_time end_time) ||
     (strLt start_time b.end_time && strLt b.end_time end_time) ||
     (strLe b.start_time start_time && strLt start_time b.end_time) ||
     (strLe end_time b.start_time && strLe b.end_time start_time))

/-- `is_room_available(room, date, start_time, end_time)`: true iff the clash
query returns no row (`fetchone()` is `None`). -/
def is_room_available (room : String) (date : Nat) (start_time end_time : String)
    (db : List Booking) : Bool :=
  (db.find? (availClash room date start_time end_time)).isNone

/-- `delete_booking(room, date, start_time)`:
`DELETE FROM bookings WHERE room_name=? AND date=? AND start_time=?` —
removes every row matching the key, keeps the rest in order. -/
def delete_booking (room : String) (date : Nat) (start_time : String)
    (db : List Booking) : List Booking :=
  db.filter fun b => !(b.room_name == room && b.date == date && b.start_time == start_time)

/-- Zero-padded two-digit rendering, as produced by `strftime` fields. -/
def two_digit (n : Nat) : String := if n < 10 then "0" ++ toString n else toString n

/-- `(datetime(2023, 1, 1, 7, 0) + timedelta(minutes=30*i)).strftime('%H:%M')`:
the label of the `i`-th slot, 30-minute steps from 07:00. -/
def slotLabel (i : Nat) : String :=
  two_digit ((420 + 30 * i) / 60) ++ ":" ++ two_digit ((420 + 30 * i) % 60)

/-- `timeslots = [... for i in range(25)]`: the fixed list of 25 half-hour
labels from "07:00" to "19:00". -/
def timeslots : List String := (List.range 25).map slotLabel

/-- `end_timeslots = timeslots[timeslots.index(timeslot_selection)+1:]`:
the suffix of `timeslots` strictly after the chosen start label. -/
def end_timeslots (timeslot_selection : String) : List String :=
  timeslots.drop (timeslots.indexOf timeslot_selection + 1)

/-- Outcomes of the Confirm Booking handler that abort without inserting:
the `st.warning("Booking info is mandatory!")` branch and the
`st.sidebar.warning("Room is not available for all selected dates. No bookings
made!")` branch (which reruns the script before the insert loop).  Neither
message carries any further data. -/
inductive BookingError where
  | emptyInfo
  | conflict
deriving DecidableEq, Repr

/-- The date series of one Confirm Booking submission: starting from the
selected date, `range(recurring_weeks if recurring_booking else 1)` iterations
of `current_date += timedelta(days=7)`. -/
def bookingDates (base : Nat) (recurring_booking : Bool) (recurring_weeks : Nat) : List Nat :=
  (List.range (if recurring_booking then recurring_weeks else 1)).map fun i => base + 7 * i

/-- The availability pre-check loop: scan the date series in order and stop at
the first date for which `is_room_available` is false (the loop sets
`all_dates_available = False` and breaks there). -/
def firstUnavailableDate (room : String) (start_time end_time : String)
    (db : List Booking) (dates : List Nat) : Option Nat :=
  dates.find? fun d => !(is_room_available room d start_time end_time db)

/-- The `st.button("Confirm Booking")` handler: reject empty `booking_info`;
otherwise pre-check availability of every date in the series against the
current table and, if some date fails, warn and rerun (no insert happens);
otherwise run the insert loop, appending one row per date with the selected
room, times, and info. -/
def confirmBooking (db : List Booking) (room : String) (base : Nat)
    (recurring_booking : Bool) (recurring_weeks : Nat)
    (start_time end_time info : String) : Except BookingError (List Booking) :=
  if info = "" then .error .emptyInfo
  else
    match firstUnavailableDate room start_time end_time db
        (bookingDates base recurring_booking recurring_weeks) with
    | some _ => .error .conflict
    | none => .ok (db ++ (bookingDates base recurring_booking recurring_weeks).map
        fun d => ⟨room, d, start_time, end_time, info⟩)

/-- The public mutating operations of the app: submitting the booking form
(single or recurring) and deleting a booking from the day list. -/
inductive Op where
  | propose (room : String) (base : Nat) (recurring_booking : Bool) (recurring_weeks : Nat)
      (start_time end_time info : String)
  | del (room : String) (date : Nat) (start_time : String)
deriving DecidableEq, Repr

/-- Effect of one operation on the stored table; a rejected proposal leaves
the table unchanged. -/
def applyOp (db : List Booking) : Op → List Booking
  | .propose room base recurring_booking recurring_weeks start_time end_time info =>
      match confirmBooking db room base recurring_booking recurring_weeks
          start_time end_time info with
      | .ok db2 => db2
      | .error _ => db
  | .del room date start_time => delete_booking room date start_time db

/-- Run a sequence of public operations starting from the empty table. -/
def execOps (ops : List Op) : List Booking := ops.foldl applyOp []

/-- The UI constrains the end slot to `end_timeslots`, a strict suffix after
the start slot, so every submitted proposal has `start_time < end_time`;
deletion is unconstrained. -/
def opValid : Op → Prop
  | .propose _ _ _ _ start_time end_time _ => start_time < end_time
  | .del _ _ _ => True

instance decOpValid (op : Op) : Decidable (opValid op) :=
  match op with
  | .propose _ _ _ _ s e _ => inferInstanceAs (Decidable (s < e))
  | .del _ _ _ => inferInstanceAs (Decidable True)

/-- Two stored bookings overlap when they are on the same room and date and
their half-open time intervals share an instant. -/
def overlaps (A B : Booking) : Prop :=
  A.room_name = B.room_name ∧ A.date = B.date ∧
    A.start_time < B.end_time ∧ B.start_time < A.end_time

instance decOverlaps (A B : Booking) : Decidable (overlaps A B) :=
  inferInstanceAs (Decidable (_ ∧ _ ∧ _ ∧ _))

/-- No two distinct stored bookings overlap (the relation is symmetric, so
`Pairwise` over the list covers every unordered pair of distinct rows). -/
def NoOverlap (db : List Booking) : Prop :=
  db.Pairwise fun A B => ¬ overlaps A B

instance decNoOverlap (db : List Booking) : Decidable (NoOverlap db) :=
  inferInstanceAs (Decidable (db.Pairwise _))

/-- Every stored booking has a nonempty half-open interval. -/
def ValidIntervals (db : List Booking) : Prop :=
  ∀ b ∈ db, b.start_time < b.end_time

instance decValidIntervals (db : List Booking) : Decidable (ValidIntervals db) :=
  inferInstanceAs (Decidable (∀ b ∈ db, _))

/-- A stored row's interval covers a given slot on a given room and date,
the semantic reading of `is_room_booked`'s row predicate. -/
def covers (b : Booking) (room : String) (date : Nat) (slot : String) : Prop :=
  b.room_name = room ∧ b.date = date ∧ b.start_time ≤ slot ∧ slot < b.end_time

instance decCovers (b : Booking) (room : String) (date : Nat) (slot : String) :
    Decidable (covers b room date slot) :=
  inferInstanceAs (Decidable (_ ∧ _ ∧ _ ∧ _))

/-- The four SQL disjuncts of the clash query are equivalent to the strict
half-open overlap predicate `S < e ∧ s < E`, provided the stored interval and
the queried interval are both nonempty.  (The fourth disjunct `e ≤ S ∧ E ≤ s`
is then unsatisfiable.) -/
theorem sql_clauses_iff_overlap (S E s e : String) (hSE : S < E) (hse : s < e) :
    ((s < S ∧ S < e) ∨ (s < E ∧ E < e) ∨ (S ≤ s ∧ s < E) ∨ (e ≤ S ∧ E ≤ s)) ↔
      (S < e ∧ s < E) := by
  constructor
  · rintro (⟨h1, h2⟩ | ⟨h1, h2⟩ | ⟨h1, h2⟩ | ⟨h1, h2⟩)
    · exact ⟨h2, lt_trans h1 hSE⟩
    · exact ⟨lt_trans hSE h2, h1⟩
    · exact ⟨lt_of_le_of_lt h1 hse, h2⟩
    · exact absurd hse (not_lt.mpr (le_trans (le_of_lt (lt_of_le_of_lt h1 hSE)) h2))
  · rintro ⟨h1, h2⟩
    by_cases h : s < S
    · exact Or.inl ⟨h, h1⟩
    · exact Or.inr (Or.inr (Or.inl ⟨not_lt.mp h, h2⟩))

theorem availClash_eq_true (room : String) (date : Nat) (s e : String) (b : Booking) :
    availClash room date s e b = true ↔
      b.room_name = room ∧ b.date = date ∧
        ((s < b.start_time ∧ b.start_time < e) ∨ (s < b.end_time ∧ b.end_time < e) ∨
         (b.start_time ≤ s ∧ s < b.end_time) ∨ (e ≤ b.start_time ∧ b.end_time ≤ s)) := by
  simp [availClash, strLt_iff_lt, strLe_iff_le, and_assoc, or_assoc]

theorem bookedAt_eq_true (room : String) (date : Nat) (slot : String) (b : Booking) :
    bookedAt room date slot b = true ↔ covers b room date slot := by
  simp [bookedAt, covers, strLt_iff_lt, strLe_iff_le, and_assoc]

/-- Semantic reading of the availability query: over a table of nonempty
intervals and for a nonempty queried interval, `is_room_available` is true
iff no stored row on that room and date overlaps `[s, e)`. -/
theorem is_room_available_eq_true (room : String) (date : Nat) (s e : String)
    (db : List Booking) (hdb : ValidIntervals db) (hse : s < e) :
    is_room_available room date s e db = true ↔
      ∀ b ∈ db, b.room_name = room → b.date = date →
        ¬ (b.start_time < e ∧ s < b.end_time) := by
  rw [is_room_available, Option.isNone_iff_eq_none, List.find?_eq_none]
  constructor
  · intro h b hb hroom hdate hov
    exact h b hb ((availClash_eq_true room date s e b).mpr
      ⟨hroom, hdate, (sql_clauses_iff_overlap _ _ _ _ (hdb b hb) hse).mpr hov⟩)
  · intro h b hb hclash
    obtain ⟨hroom, hdate, hc⟩ := (availClash_eq_true room date s e b).mp hclash
    exact h b hb hroom hdate ((sql_clauses_iff_overlap _ _ _ _ (hdb b hb) hse).mp hc)

theorem firstUnavailableDate_eq_none (room s e : String) (db : List Booking)
    (dates : List Nat) :
    firstUnavailableDate room s e db dates = none ↔
      ∀ d ∈ dates, is_room_available room d s e db = true := by
  rw [firstUnavailableDate, List.find?_eq_none]
  simp

/-- If the handler accepts, `booking_info` was nonempty, every date of the
series passed the pre-check, and the resulting table is the old one with one
appended row per date of the series. -/
theorem confirmBooking_ok (db : List Booking) (room : String) (base : Nat)
    (rec : Bool) (weeks : Nat) (s e info : String) (db2 : List Booking)
    (h : confirmBooking db room base rec weeks s e info = .ok db2) :
    db2 = db ++ (bookingDates base rec weeks).map (fun d => ⟨room, d, s, e, info⟩) ∧
      ∀ d ∈ bookingDates base rec weeks, is_room_available room d s e db = true := by
  rw [confirmBooking] at h
  by_cases hinfo : info = ""
  · rw [if_pos hinfo] at h; cases h
  · rw [if_neg hinfo] at h
    cases hfind : firstUnavailableDate room s e db (bookingDates base rec weeks) with
    | some d => rw [hfind] at h; cases h
    | none =>
      rw [hfind] at h
      cases h
      exact ⟨rfl, (firstUnavailableDate_eq_none room s e db _).mp hfind⟩

theorem bookingDates_pairwise_ne (base : Nat) (rec : Bool) (weeks : Nat) :
    (bookingDates base rec weeks).Pairwise (· ≠ ·) := by
  rw [bookingDates, List.pairwise_map]
  exact (List.pairwise_lt_range _).imp (by intro i j hij; omega)

/-- One public operation preserves both invariants: pairwise non-overlap and
nonemptiness of every stored interval. -/
theorem applyOp_preserves (db : List Booking) (op : Op)
    (hno : NoOverlap db) (hvi : ValidIntervals db) (hop : opValid op) :
    NoOverlap (applyOp db op) ∧ ValidIntervals (applyOp db op) := by
  cases op with
  | del room date s =>
    constructor
    · exact List.Pairwise.sublist (List.filter_sublist db) hno
    · intro b hb
      exact hvi b (List.mem_of_mem_filter hb)
  | propose room base rec weeks s e info =>
    rw [applyOp]
    cases hc : confirmBooking db room base rec weeks s e info with
    | error err => exact ⟨hno, hvi⟩
    | ok db2 =>
      obtain ⟨hdb2, havail⟩ := confirmBooking_ok db room base rec weeks s e info db2 hc
      subst hdb2
      have hse : s < e := hop
      constructor
      · rw [NoOverlap, List.pairwise_append]
        refine ⟨hno, ?_, ?_⟩
        · rw [List.pairwise_map]
          refine (bookingDates_pairwise_ne base rec weeks).imp ?_
          intro d1 d2 hne hov
          exact hne hov.2.1
        · intro a ha b hb
          obtain ⟨d, hd, hbd⟩ := List.mem_map.mp hb
          subst hbd
          intro hov
          exact (is_room_available_eq_true room d s e db hvi hse).mp
            (havail d hd) a ha hov.1 hov.2.1 ⟨hov.2.2.1, hov.2.2.2⟩
      · intro b hb
        rcases List.mem_append.mp hb with hb | hb
        · exact hvi b hb
        · obtain ⟨d, hd, hbd⟩ := List.mem_map.mp hb
          subst hbd
          exact hse

theorem execOps_loop (ops : List Op) (db : List Booking)
    (hno : NoOverlap db) (hvi : ValidIntervals db)
    (hops : ∀ op ∈ ops, opValid op) :
    NoOverlap (ops.foldl applyOp db) ∧ ValidIntervals (ops.foldl applyOp db) := by
  induction ops generalizing db with
  | nil => exact ⟨hno, hvi⟩
  | cons op ops ih =>
    rw [List.foldl_cons]
    obtain ⟨h1, h2⟩ := applyOp_preserves db op hno hvi (hops op (List.mem_cons_self op ops))
    exact ih _ h1 h2 fun o ho => hops o (List.mem_cons_of_mem op ho)

/-- Claim C1 (confirmed): starting from the empty table and executing any
sequence of the public operations (single or recurring proposal, delete)
sequentially — with each proposal's end slot strictly after its start slot, as
the UI's `end_timeslots` suffix enforces — every pair of distinct stored
bookings on the same room and date has non-overlapping half-open intervals. -/
theorem C1_no_overlap_invariant (ops : List Op) (hops : ∀ op ∈ ops, opValid op) :
    NoOverlap (execOps ops) :=
  (execOps_loop ops [] List.Pairwise.nil (fun b hb => absurd hb (List.not_mem_nil b)) hops).1

/-- Witness for C1: a run with a recurring proposal, an overlapping proposal
that is rejected, a delete, and a touching proposal that succeeds. -/
theorem C1_no_overlap_invariant_witness :
    (∀ op ∈ ([.propose "Styrelsen" 100 true 2 "09:00" "10:00" "Standup",
              .propose "Styrelsen" 100 false 1 "09:30" "10:30" "Demo",
              .propose "Styrelsen" 100 false 1 "10:00" "10:30" "Sync",
              .del "Styrelsen" 100 "09:00"] : List Op), opValid op) ∧
    NoOverlap (execOps
        [.propose "Styrelsen" 100 true 2 "09:00" "10:00" "Standup",
         .propose "Styrelsen" 100 false 1 "09:30" "10:30" "Demo",
         .propose "Styrelsen" 100 false 1 "10:00" "10:30" "Sync",
         .del "Styrelsen" 100 "09:00"]) :=
  ⟨by decide, C1_no_overlap_invariant
    [.propose "Styrelsen" 100 true 2 "09:00" "10:00" "Standup",
     .propose "Styrelsen" 100 false 1 "09:30" "10:30" "Demo",
     .propose "Styrelsen" 100 false 1 "10:00" "10:30" "Sync",
     .del "Styrelsen" 100 "09:00"] (by decide)⟩

/-- Claim C2 (confirmed): over a table whose stored intervals are nonempty and
for a query with `s < e`, `is_room_available` returns true iff no stored row
on that room and date overlaps `[s, e)` under the strict half-open predicate
`S < e ∧ s < E`.  In particular it is false when `(s, e)` equals, contains, is
contained in, or partially overlaps a stored interval (all instances of the
right-hand side), and true when intervals merely touch at an endpoint. -/
theorem C2_availability_correct (room : String) (date : Nat) (s e : String)
    (db : List Booking) (hdb : ValidIntervals db) (hse : s < e) :
    is_room_available room date s e db = true ↔
      ∀ b ∈ db, b.room_name = room → b.date = date →
        ¬ (b.start_time < e ∧ s < b.end_time) :=
  is_room_available_eq_true room date s e db hdb hse

/-- Witness for C2, instantiated at a partially overlapping query. -/
theorem C2_availability_correct_witness :
    ValidIntervals [⟨"Styrelsen", 0, "09:00", "10:00", "Standup"⟩] ∧
    ("09:30" : String) < "10:30" ∧
    (is_room_available "Styrelsen" 0 "09:30" "10:30"
        [⟨"Styrelsen", 0, "09:00", "10:00", "Standup"⟩] = true ↔
      ∀ b ∈ [(⟨"Styrelsen", 0, "09:00", "10:00", "Standup"⟩ : Booking)],
        b.room_name = "Styrelsen" → b.date = 0 →
          ¬ (b.start_time < "10:30" ∧ "09:30" < b.end_time)) :=
  ⟨by decide, by decide,
    C2_availability_correct "Styrelsen" 0 "09:30" "10:30"
      [⟨"Styrelsen", 0, "09:00", "10:00", "Standup"⟩] (by decide) (by decide)⟩

/-- Claim C3 (confirmed): if some date of the recurring series fails the
availability pre-check, the handler stops with the conflict warning before the
insert loop runs, so the table is completely unchanged. -/
theorem C3_recurring_all_or_nothing (db : List Booking) (room : String)
    (base weeks : Nat) (s e info : String) (d : Nat) (hinfo : info ≠ "")
    (hd : d ∈ bookingDates base true weeks)
    (hfail : is_room_available room d s e db = false) :
    confirmBooking db room base true weeks s e info = .error .conflict ∧
      applyOp db (.propose room base true weeks s e info) = db := by
  have hconf : confirmBooking db room base true weeks s e info = .error .conflict := by
    rw [confirmBooking, if_neg hinfo]
    cases hfind : firstUnavailableDate room s e db (bookingDates base true weeks) with
    | some d2 => rfl
    | none =>
      have hav := (firstUnavailableDate_eq_none room s e db _).mp hfind d hd
      rw [hfail] at hav
      cases hav
  refine ⟨hconf, ?_⟩
  simp only [applyOp, hconf]

/-- Witness for C3: weeks = 3 with a conflict only on the second week's date. -/
theorem C3_recurring_all_or_nothing_witness :
    (("Weekly" : String) ≠ "") ∧
    (7 ∈ bookingDates 0 true 3) ∧
    (is_room_available "Styrelsen" 7 "09:30" "10:30"
        [⟨"Styrelsen", 7, "09:00", "10:00", "Board"⟩] = false) ∧
    (confirmBooking [⟨"Styrelsen", 7, "09:00", "10:00", "Board"⟩] "Styrelsen" 0 true 3
        "09:30" "10:30" "Weekly" = .error .conflict ∧
      applyOp [⟨"Styrelsen", 7, "09:00", "10:00", "Board"⟩]
        (.propose "Styrelsen" 0 true 3 "09:30" "10:30" "Weekly") =
        [⟨"Styrelsen", 7, "09:00", "10:00", "Board"⟩]) :=
  ⟨by decide, by decide, by decide,
    C3_recurring_all_or_nothing [⟨"Styrelsen", 7, "09:00", "10:00", "Board"⟩]
      "Styrelsen" 0 3 "09:30" "10:30" "Weekly" 7 (by decide) (by decide) (by decide)⟩

/-- Claim C5 (confirmed): when every date of the series passes the pre-check
(and the info text is nonempty), the handler appends exactly one row per date
of the series, each with the requested room, times, and info, and nothing
else; the series has exactly `weeks` dates, and a non-recurring submission
behaves exactly like a recurring one with `weeks = 1`. -/
theorem C5_recurring_success (db : List Booking) (room : String) (base weeks : Nat)
    (s e info : String) (hinfo : info ≠ "")
    (hok : ∀ d ∈ bookingDates base true weeks, is_room_available room d s e db = true) :
    confirmBooking db room base true weeks s e info =
      .ok (db ++ (bookingDates base true weeks).map fun d => ⟨room, d, s, e, info⟩) ∧
    (bookingDates base true weeks).length = weeks ∧
    ∀ w : Nat, confirmBooking db room base false w s e info =
      confirmBooking db room base true 1 s e info := by
  refine ⟨?_, by simp [bookingDates], fun w => rfl⟩
  rw [confirmBooking, if_neg hinfo, (firstUnavailableDate_eq_none room s e db _).mpr hok]

/-- Witness for C5: a two-week recurring booking into a table that only has a
touching booking on the first date. -/
theorem C5_recurring_success_witness :
    (("Weekly" : String) ≠ "") ∧
    (∀ d ∈ bookingDates 0 true 2, is_room_available "Styrelsen" d "09:00" "10:00"
        [⟨"Styrelsen", 0, "10:00", "11:00", "Board"⟩] = true) ∧
    confirmBooking [⟨"Styrelsen", 0, "10:00", "11:00", "Board"⟩] "Styrelsen" 0 true 2
        "09:00" "10:00" "Weekly" =
      .ok ([⟨"Styrelsen", 0, "10:00", "11:00", "Board"⟩] ++
        (bookingDates 0 true 2).map fun d => ⟨"Styrelsen", d, "09:00", "10:00", "Weekly"⟩) :=
  ⟨by decide, by decide,
    (C5_recurring_success [⟨"Styrelsen", 0, "10:00", "11:00", "Board"⟩] "Styrelsen" 0 2
      "09:00" "10:00" "Weekly" (by decide) (by decide)).1⟩

/-- Claim C4 counterexample: the claim's second half fails on a store that
already holds a touching booking.  Insert `b = ("09:00", "10:00")` (a valid
interval) into a table holding `("10:00", "10:30")` on the same room and date:
`is_room_booked` at slot `b.end = "10:00"` returns the touching booking, not
none. -/
theorem C4_counterexample :
    ("09:00" : String) < "10:00" ∧
    is_room_booked "Styrelsen" 0 "10:00"
        ([⟨"Styrelsen", 0, "10:00", "10:30", "Next"⟩] ++
          [⟨"Styrelsen", 0, "09:00", "10:00", "Mine"⟩]) ≠ none := by
  decide

/-- Claim C4 as amended: after appending `b`, `is_room_booked` at any slot in
`[b.start, b.end)` returns `b` provided no previously stored row covers that
slot for `(b.room, b.date)` (rows are scanned in insertion order, so an
earlier covering row would be returned instead); and at `b.end` it returns
none provided no previously stored row covers `b.end` — `b` itself never
covers its own end, by half-open semantics. -/
theorem C4_insert_findAt (db : List Booking) (b : Booking) (slot : String) :
    (b.start_time ≤ slot → slot < b.end_time →
      (∀ b2 ∈ db, ¬ covers b2 b.room_name b.date slot) →
      is_room_booked b.room_name b.date slot (db ++ [b]) = some b) ∧
    ((∀ b2 ∈ db, ¬ covers b2 b.room_name b.date b.end_time) →
      is_room_booked b.room_name b.date b.end_time (db ++ [b]) = none) := by
  constructor
  · intro h1 h2 h3
    rw [is_room_booked, List.find?_append]
    have hnone : db.find? (bookedAt b.room_name b.date slot) = none :=
      List.find?_eq_none.mpr fun x hx hpx => h3 x hx ((bookedAt_eq_true _ _ _ x).mp hpx)
    have hb : bookedAt b.room_name b.date slot b = true :=
      (bookedAt_eq_true _ _ _ b).mpr ⟨rfl, rfl, h1, h2⟩
    rw [hnone, List.find?_cons_of_pos _ hb]
    rfl
  · intro h3
    rw [is_room_booked]
    apply List.find?_eq_none.mpr
    intro x hx hpx
    rcases List.mem_append.mp hx with hx2 | hx2
    · exact h3 x hx2 ((bookedAt_eq_true _ _ _ x).mp hpx)
    · rw [List.mem_singleton] at hx2
      subst hx2
      exact absurd ((bookedAt_eq_true _ _ _ x).mp hpx).2.2.2 (lt_irrefl _)

/-- Witness for the amended C4: insert into the empty table and query a slot
strictly inside the interval. -/
theorem C4_insert_findAt_witness :
    ("09:00" : String) ≤ "09:30" ∧ ("09:30" : String) < "10:00" ∧
    is_room_booked "Styrelsen" 0 "09:30"
        ([] ++ [⟨"Styrelsen", 0, "09:00", "10:00", "Standup"⟩]) =
      some ⟨"Styrelsen", 0, "09:00", "10:00", "Standup"⟩ :=
  ⟨by decide, by decide,
    (C4_insert_findAt [] ⟨"Styrelsen", 0, "09:00", "10:00", "Standup"⟩ "09:30").1
      (by decide) (by decide) (fun b2 hb2 => absurd hb2 (List.not_mem_nil b2))⟩

/-- Claim C6 counterexample: the conflict outcome of the handler is the same
constant warning whatever date failed, so no reading of the outcome can
recover the first failing date: any function `f` of the outcome that always
returned the first failing date would have to map the single value
`error conflict` to both `some 0` and `some 7`. -/
theorem C6_counterexample :
    ¬ ∃ f : Except BookingError (List Booking) → Option Nat,
        ∀ (db : List Booking) (room : String) (base : Nat) (rec : Bool)
          (weeks : Nat) (s e info : String) (d : Nat),
          info ≠ "" →
          firstUnavailableDate room s e db (bookingDates base rec weeks) = some d →
          f (confirmBooking db room base rec weeks s e info) = some d := by
  rintro ⟨f, hf⟩
  have h1 := hf [⟨"Styrelsen", 0, "09:00", "10:00", "Board"⟩] "Styrelsen" 0 true 1
    "09:00" "10:00" "Standup" 0 (by decide) (by decide)
  have h2 := hf [⟨"Styrelsen", 7, "09:00", "10:00", "Board"⟩] "Styrelsen" 7 true 1
    "09:00" "10:00" "Standup" 7 (by decide) (by decide)
  have e1 : confirmBooking [⟨"Styrelsen", 0, "09:00", "10:00", "Board"⟩] "Styrelsen" 0
      true 1 "09:00" "10:00" "Standup" = .error .conflict := rfl
  have e2 : confirmBooking [⟨"Styrelsen", 7, "09:00", "10:00", "Board"⟩] "Styrelsen" 7
      true 1 "09:00" "10:00" "Standup" = .error .conflict := rfl
  rw [e1] at h1
  rw [e2] at h2
  rw [h1] at h2
  exact absurd h2 (by decide)

/-- Claim C6 as amended: when some date of the series fails the pre-check, the
handler fails with the conflict outcome; the scan does stop at the first
failing date, but the outcome it produces is the same constant warning and
does not identify that date. -/
theorem C6_conflict_outcome (db : List Booking) (room : String) (base : Nat)
    (rec : Bool) (weeks : Nat) (s e info : String) (d : Nat) (hinfo : info ≠ "")
    (hfirst : firstUnavailableDate room s e db (bookingDates base rec weeks) = some d) :
    confirmBooking db room base rec weeks s e info = .error .conflict := by
  rw [confirmBooking, if_neg hinfo, hfirst]

/-- Witness for the amended C6. -/
theorem C6_conflict_outcome_witness :
    (("Standup" : String) ≠ "") ∧
    firstUnavailableDate "Styrelsen" "09:30" "10:30"
        [⟨"Styrelsen", 7, "09:00", "10:00", "Board"⟩] (bookingDates 0 true 3) = some 7 ∧
    confirmBooking [⟨"Styrelsen", 7, "09:00", "10:00", "Board"⟩] "Styrelsen" 0 true 3
        "09:30" "10:30" "Standup" = .error .conflict :=
  ⟨by decide, by decide,
    C6_conflict_outcome [⟨"Styrelsen", 7, "09:00", "10:00", "Board"⟩] "Styrelsen" 0
      true 3 "09:30" "10:30" "Standup" 7 (by decide) (by decide)⟩

/-- Claim C7 (confirmed): an empty info text is rejected with the
"Booking info is mandatory!" outcome whatever the availability situation —
the check precedes the availability scan and the insert loop — and the table
is unchanged; a nonempty info text never produces that outcome. -/
theorem C7_empty_info (db : List Booking) (room : String) (base : Nat)
    (rec : Bool) (weeks : Nat) (s e info : String) :
    confirmBooking db room base rec weeks s e "" = .error .emptyInfo ∧
    applyOp db (.propose room base rec weeks s e "") = db ∧
    (info ≠ "" → confirmBooking db room base rec weeks s e info ≠ .error .emptyInfo) := by
  refine ⟨rfl, rfl, ?_⟩
  intro hinfo
  rw [confirmBooking, if_neg hinfo]
  cases firstUnavailableDate room s e db (bookingDates base rec weeks) with
  | some d => simp
  | none => simp

/-- Witness for C7's nonempty-info half. -/
theorem C7_empty_info_witness :
    (("Standup" : String) ≠ "") ∧
    confirmBooking [] "Styrelsen" 0 false 1 "09:00" "10:00" "Standup" ≠
      .error .emptyInfo :=
  ⟨by decide,
    (C7_empty_info [] "Styrelsen" 0 false 1 "09:00" "10:00" "Standup").2.2 (by decide)⟩

/-- Claim C8 (confirmed): `timeslots` is the fixed deterministic list of 25
half-hour labels starting at "07:00"; it is strictly increasing in string
(bytewise) order, so lexical order coincides with the chronological generation
order; and for every label in it, `end_timeslots` is exactly the labels of the
grid strictly after it (the increasing order makes the suffix after the label
coincide with the filter of strictly later labels). -/
theorem C8_timegrid :
    timeslots.length = 25 ∧ timeslots.head? = some "07:00" ∧
    timeslots.Pairwise (· < ·) ∧
    ∀ l ∈ timeslots, end_timeslots l = timeslots.filter fun x => strLt l x := by
  refine ⟨by decide, by decide, by decide, by decide⟩

/-- Witness for C8's last conjunct at the label "18:00". -/
theorem C8_timegrid_witness :
    end_timeslots "18:00" = timeslots.filter fun x => strLt "18:00" x :=
  C8_timegrid.2.2.2 "18:00" (by decide)

/-- Claim C9 (confirmed): `delete_booking` is a total function (it cannot
error); deleting an absent key is a no-op, and a second delete of the same key
leaves the table exactly as the first delete left it. -/
theorem C9_delete_idempotent (db : List Booking) (room : String) (date : Nat)
    (s : String) :
    delete_booking room date s (delete_booking room date s db) =
      delete_booking room date s db ∧
    ((∀ b ∈ db, ¬ (b.room_name = room ∧ b.date = date ∧ b.start_time = s)) →
      delete_booking room date s db = db) := by
  constructor
  · rw [delete_booking, delete_booking, List.filter_filter]
    simp
  · intro h
    rw [delete_booking, List.filter_eq_self]
    intro b hb
    have hbn := h b hb
    simp only [Bool.not_eq_true', Bool.and_eq_false_iff, beq_eq_false_iff_ne, ne_eq]
    tauto

/-- Witness for C9 on a table without the key. -/
theorem C9_delete_idempotent_witness :
    (∀ b ∈ [(⟨"Styrelsen", 0, "10:00", "11:00", "Board"⟩ : Booking)],
      ¬ (b.room_name = "Styrelsen" ∧ b.date = 0 ∧ b.start_time = "09:00")) ∧
    delete_booking "Styrelsen" 0 "09:00" [⟨"Styrelsen", 0, "10:00", "11:00", "Board"⟩] =
      [⟨"Styrelsen", 0, "10:00", "11:00", "Board"⟩] :=
  ⟨by decide,
    (C9_delete_idempotent [⟨"Styrelsen", 0, "10:00", "11:00", "Board"⟩]
      "Styrelsen" 0 "09:00").2 (by decide)⟩

/-- Claim C10 (confirmed): `delete_booking` removes every row whose
`(room_name, date, start_time)` equals the key — duplicates included, since
the table has no uniqueness constraint — and keeps every other row, with
multiplicity and order preserved (the result is a sublist of the table). -/
theorem C10_delete_frame (db : List Booking) (room : String) (date : Nat)
    (s : String) (b : Booking) :
    (delete_booking room date s db).Sublist db ∧
    ((b.room_name = room ∧ b.date = date ∧ b.start_time = s) →
      (delete_booking room date s db).count b = 0) ∧
    (¬ (b.room_name = room ∧ b.date = date ∧ b.start_time = s) →
      (delete_booking room date s db).count b = db.count b) := by
  refine ⟨List.filter_sublist db, ?_, ?_⟩
  · rintro ⟨h1, h2, h3⟩
    rw [List.count_eq_zero]
    intro hmem
    have hkeep := List.of_mem_filter hmem
    simp [h1, h2, h3] at hkeep
  · intro h
    refine List.count_filter ?_
    simp only [Bool.not_eq_true', Bool.and_eq_false_iff, beq_eq_false_iff_ne, ne_eq]
    tauto

/-- Witness for C10 on a table with a duplicated key row and one other row. -/
theorem C10_delete_frame_witness :
    ((⟨"Styrelsen", 0, "09:00", "10:00", "A"⟩ : Booking).room_name = "Styrelsen" ∧
      (⟨"Styrelsen", 0, "09:00", "10:00", "A"⟩ : Booking).date = 0 ∧
      (⟨"Styrelsen", 0, "09:00", "10:00", "A"⟩ : Booking).start_time = "09:00") ∧
    (delete_booking "Styrelsen" 0 "09:00"
        [⟨"Styrelsen", 0, "09:00", "10:00", "A"⟩,
         ⟨"Coffice", 0, "09:00", "10:00", "B"⟩,
         ⟨"Styrelsen", 0, "09:00", "10:00", "A"⟩]).count
      ⟨"Styrelsen", 0, "09:00", "10:00", "A"⟩ = 0 :=
  ⟨⟨rfl, rfl, rfl⟩,
    (C10_delete_frame
      [⟨"Styrelsen", 0, "09:00", "10:00", "A"⟩,
       ⟨"Coffice", 0, "09:00", "10:00", "B"⟩,
       ⟨"Styrelsen", 0, "09:00", "10:00", "A"⟩]
      "Styrelsen" 0 "09:00" ⟨"Styrelsen", 0, "09:00", "10:00", "A"⟩).2.1
      ⟨rfl, rfl, rfl⟩⟩

end RoomBooking
